import Mathlib

/-!
Verification development for the two-phase NPoS election provider
(`frame/election-providers`): a shallow embedding of the phase state machine,
the signed submission queue, the feasibility checker, the unsigned validator
and the miner's weight-bounded length search, together with theorems checking
the specification's claims against the embedded code.

Machine integers are modelled as `Nat`, with explicit truncation/saturation at
the word size only where overflow is semantically relevant (transaction
priority and longevity, which are `u64` quantities in the source).

Primitives that live outside the embedded crate (the `sp-npos-elections`
helpers `is_score_better`, `assignment_ratio_to_staked_normalized`,
`to_supports`, `evaluate`, and the compact-solution operations) are modelled
from the specification's description of them; each such definition carries a
doc comment saying so.
-/

deriving instance DecidableEq for Except

namespace TwoPhaseElection

/-- `u64::MAX` as a natural number. -/
def u64Max : Nat := 2 ^ 64 - 1

/-- `u128::MAX` as a natural number. -/
def u128Max : Nat := 2 ^ 128 - 1

/-- A per-billion fractional value (`Perbill`). -/
structure Perbill where
  parts : Nat
deriving DecidableEq, Repr

/-- Modelled from the spec: multiplication of a balance by a `Perbill`
fraction (a per-thing multiplier; the host arithmetic crate is outside the
embedded sources). -/
def perbill_mul (p : Perbill) (x : Nat) : Nat :=
  x * p.parts / 1000000000

/-- Modelled from the spec: `lhs_scaled = lhs + lhs * threshold`, the scaled
comparand used by the score comparator (saturation is irrelevant over `Nat`). -/
def threshold_scale (t : Perbill) (x : Nat) : Nat :=
  x + perbill_mul t x

/-- An election score triple: (minimal winner stake, total backing,
sum of squares of backings). -/
abbrev ElectionScore := Nat × Nat × Nat

/-- Modelled from the spec: `sp_npos_elections::is_score_better(this, that,
epsilon)` is `true` iff `this[0] ≥ that[0] × (1 + epsilon)`, judged on the
primary score element only, with the threshold applied by fixed-point
multiplication. -/
def is_score_better (this that : ElectionScore) (epsilon : Perbill) : Bool :=
  threshold_scale epsilon that.1 ≤ this.1

/-- The spec's total order on scores: compare `(s0, s1, −s2)` lexicographically
(larger `s0` better, then larger `s1`, then smaller `s2`).  `score_le a b` says
`a` is at most as good as `b`. -/
def score_le (a b : ElectionScore) : Prop :=
  a.1 < b.1 ∨ (a.1 = b.1 ∧ (a.2.1 < b.2.1 ∨ (a.2.1 = b.2.1 ∧ b.2.2 ≤ a.2.2)))

instance (a b : ElectionScore) : Decidable (score_le a b) := by
  unfold score_le; infer_instance

/-- `Phase` of the pallet: `Off`, `Signed`, or `Unsigned((open, opened_at))`. -/
inductive Phase where
  | off : Phase
  | signed : Phase
  | unsigned (isOpen : Bool) (openedAt : Nat) : Phase
deriving DecidableEq, Repr

/-- `Phase::is_signed`. -/
def Phase.is_signed : Phase → Bool
  | .signed => true
  | _ => false

/-- `Phase::is_unsigned_open`. -/
def Phase.is_unsigned_open : Phase → Bool
  | .unsigned true _ => true
  | _ => false

/-- `Phase::is_unsigned_open_at(at)`. -/
def Phase.is_unsigned_open_at (p : Phase) (at_ : Nat) : Bool :=
  match p with
  | .unsigned true real => real = at_
  | _ => false

/-- `ElectionCompute`: how the queued election result was computed. -/
inductive ElectionCompute where
  | onChain : ElectionCompute
  | signed : ElectionCompute
  | unsigned : ElectionCompute
deriving DecidableEq, Repr

/-- One winner's support: its total backing and the individual backers. -/
structure Support where
  total : Nat
  voters : List (Nat × Nat)
deriving DecidableEq, Repr

/-- Target-major supports: one entry per winner. -/
abbrev Supports := List (Nat × Support)

/-- Modelled from the spec: `EvaluateSupport::evaluate` — the score of a
support list is (minimal total, sum of totals, sum of squared totals); the
minimum starts from `u128::MAX` as in the host crate. -/
def evaluate_supports (s : Supports) : ElectionScore :=
  ( s.foldl (fun acc x => min acc x.2.total) u128Max
  , s.foldl (fun acc x => acc + x.2.total) 0
  , s.foldl (fun acc x => acc + x.2.total * x.2.total) 0 )

/-- Accuracy denominator of the per-thing edge weights carried by a compact
solution (modelled from the spec; the concrete per-thing type is a host
serialization choice). -/
def ACCURACY : Nat := 1000000000

/-- One packed assignment of a compact solution: a voter index and its edges
(target index, fractional weight in parts of `ACCURACY`). -/
structure IndexAssignment where
  voter : Nat
  distribution : List (Nat × Nat)
deriving DecidableEq, Repr

/-- Modelled from the spec: the opaque `CompactSolution` capability, as the
list of packed index assignments it encodes. -/
abbrev Compact := List IndexAssignment

/-- An assignment resolved to account ids, with fractional edge weights. -/
structure Assignment where
  who : Nat
  distribution : List (Nat × Nat)
deriving DecidableEq, Repr

/-- An assignment with edge weights converted to absolute stake. -/
structure StakedAssignment where
  who : Nat
  distribution : List (Nat × Nat)
deriving DecidableEq, Repr

/-- Modelled from the spec: `CompactSolution::unique_targets` — the distinct
target indices mentioned by the compact solution. -/
def unique_targets (c : Compact) : List Nat :=
  (c.flatMap (fun ia => ia.distribution.map Prod.fst)).dedup

/-- Errors of the feasibility checker. -/
inductive FeasibilityError where
  | wrongWinnerCount : FeasibilityError
  | snapshotUnavailable : FeasibilityError
  | nposElection : FeasibilityError
  | invalidVote : FeasibilityError
  | invalidVoter : FeasibilityError
  | invalidWinner : FeasibilityError
  | invalidScore : FeasibilityError
deriving DecidableEq, Repr

/-- Modelled from the spec: `CompactSolution::into_assignment(voter_at,
target_at)` — resolve every voter and target index; an unresolvable index is
an error of the npos crate (mapped into `FeasibilityError`). -/
def into_assignment (c : Compact) (voterAt : Nat → Option Nat)
    (targetAt : Nat → Option Nat) : Except FeasibilityError (List Assignment) :=
  c.mapM (fun ia => do
    let who ← match voterAt ia.voter with
      | some w => Except.ok w
      | none => Except.error FeasibilityError.nposElection
    let dist ← ia.distribution.mapM (fun e => do
      let t ← match targetAt e.1 with
        | some t => Except.ok t
        | none => Except.error FeasibilityError.nposElection
      pure (t, e.2))
    pure { who := who, distribution := dist })

/-- Add `d` to the weight of the last edge of a distribution. -/
def add_to_last : List (Nat × Nat) → Nat → List (Nat × Nat)
  | [], _ => []
  | [e], d => [(e.1, e.2 + d)]
  | e :: rest, d => e :: add_to_last rest d

/-- Modelled from the spec:
`sp_npos_elections::assignment_ratio_to_staked_normalized` — scale each
fractional edge by the voter's stake and normalize so the edge weights sum to
exactly the stake; arithmetic failures propagate as an npos error. -/
def ratio_to_staked_normalized (stakeOf : Nat → Nat) (assignments : List Assignment) :
    Except FeasibilityError (List StakedAssignment) :=
  assignments.mapM (fun a => do
    let stake := stakeOf a.who
    let raw := a.distribution.map (fun e => (e.1, e.2 * stake / ACCURACY))
    let s := (raw.map Prod.snd).sum
    if s ≤ stake then
      match raw with
      | [] =>
        if stake = 0 then Except.ok { who := a.who, distribution := [] }
        else Except.error FeasibilityError.nposElection
      | _ => Except.ok { who := a.who, distribution := add_to_last raw (stake - s) }
    else Except.error FeasibilityError.nposElection)

/-- All (voter, target, stake) edges of a staked assignment list. -/
def staked_edges (staked : List StakedAssignment) : List (Nat × Nat × Nat) :=
  staked.flatMap (fun a => a.distribution.map (fun e => (a.who, e.1, e.2)))

/-- Modelled from the spec: `sp_npos_elections::to_supports(winners, staked)`
— build target-major supports over exactly the winner list; an edge pointing
at a non-winner is an error of the npos crate. -/
def to_supports (winners : List Nat) (staked : List StakedAssignment) :
    Except FeasibilityError Supports :=
  let edges := staked_edges staked
  if edges.all (fun e => winners.contains e.2.1) then
    Except.ok (winners.map (fun w =>
      let rel := edges.filter (fun e => e.2.1 = w)
      (w, { total := (rel.map (fun e => e.2.2)).sum,
            voters := rel.map (fun e => (e.1, e.2.2)) })))
  else Except.error FeasibilityError.nposElection

namespace TwoPhase

/-- `RawSolution` of `frame/election-providers/expanded.rs`: compact edges and
the claimed score. -/
structure RawSolution where
  compact : Compact
  score : ElectionScore
deriving DecidableEq, Repr

/-- `RoundSnapshot`: voters (account, stake, approvals), targets, and the
desired number of winners. -/
structure RoundSnapshot where
  voters : List (Nat × Nat × List Nat)
  targets : List Nat
  desiredTargets : Nat
deriving DecidableEq, Repr

/-- `ReadySolution`: a feasibility-checked solution ready to be consumed. -/
structure ReadySolution where
  supports : Supports
  score : ElectionScore
  compute : ElectionCompute
deriving DecidableEq, Repr

/-- `SignedSubmission`: a queued signed solution with its bookkeeping. -/
structure SignedSubmission where
  who : Nat
  deposit : Nat
  reward : Nat
  solution : RawSolution
deriving DecidableEq, Repr

/-- Dispatch errors of the pallet's extrinsics. -/
inductive PalletError where
  | badOrigin : PalletError
  | earlySubmission : PalletError
  | weakSubmission : PalletError
  | queueFull : PalletError
  | cannotPayDeposit : PalletError
deriving DecidableEq, Repr

/-- The pallet's `Error` type (payloads of the external error variants are
dropped, which no claim depends on). -/
inductive ElectError where
  | feasibility (e : FeasibilityError) : ElectError
  | onChainFallback : ElectError
  | nposElections : ElectError
  | snapshotUnAvailable : ElectError
  | poolSubmissionFailed : ElectError
deriving DecidableEq, Repr

/-- Static configuration plus the external collaborators of the pallet
(election data provider, weight info, currency solvency, host encoding). -/
structure Config where
  signedPhase : Nat
  unsignedPhase : Nat
  maxSignedSubmissions : Nat
  solutionImprovementThreshold : Perbill
  signedRewardBase : Nat
  signedRewardFactor : Nat
  signedDepositBase : Nat
  signedDepositByte : Nat
  signedDepositWeight : Nat
  unsignedPriority : Nat
  nextElectionPrediction : Nat → Nat
  dataVoters : List (Nat × Nat × List Nat)
  dataTargets : List Nat
  dataDesiredTargets : Nat
  feasibilityCheckAssignment : Nat → List (Nat × Nat) → Bool
  encodedLen : RawSolution → Nat
  feasibilityWeight : Nat
  canReserve : Nat → Nat → Bool
  seqPhragmenElect : Nat → List Nat → List (Nat × Nat × List Nat) → Except Unit Supports

/-- The pallet's persistent storage. -/
structure State where
  round : Nat
  currentPhase : Phase
  signedSubmissions : List SignedSubmission
  queuedSolution : Option ReadySolution
  snapshot : Option RoundSnapshot
deriving DecidableEq, Repr

/-- Calls into the host currency collaborator, recorded as effects. -/
inductive CurrencyOp where
  | reserve (who amt : Nat) : CurrencyOp
  | unreserve (who amt : Nat) : CurrencyOp
  | slashReserved (who amt : Nat) : CurrencyOp
  | depositCreating (who amt : Nat) : CurrencyOp
deriving DecidableEq, Repr

/-- Deposited events. -/
inductive Event where
  | solutionStored (compute : ElectionCompute) : Event
  | electionFinalized (compute : Option ElectionCompute) : Event
deriving DecidableEq, Repr

/-- Dispatch origins. -/
inductive Origin where
  | signedBy (who : Nat) : Origin
  | nobody : Origin
  | root : Origin
deriving DecidableEq, Repr

/-- `Self::desired_targets()`: read from the snapshot, with the storage
default `0` when no snapshot is present. -/
def desired_targets (st : State) : Nat :=
  match st.snapshot with
  | some snap => snap.desiredTargets
  | none => 0

/-- Steps 1–4 of `feasibility_check` plus the support construction: winner
count, index resolution, per-voter vote validity, staking conversion, and
target-major supports — everything before the final score comparison. -/
def feasibility_supports (cfg : Config) (st : State) (solution : RawSolution) :
    Except FeasibilityError Supports :=
  let winnerIndices := unique_targets solution.compact
  if winnerIndices.length ≠ desired_targets st then
    Except.error FeasibilityError.wrongWinnerCount
  else
    match st.snapshot with
    | none => Except.error FeasibilityError.snapshotUnavailable
    | some snap => do
      let voterAt := fun i => (snap.voters.get? i).map (fun v => v.1)
      let targetAt := fun i => snap.targets.get? i
      let winners ← winnerIndices.mapM (fun i =>
        match targetAt i with
        | some t => Except.ok t
        | none => Except.error FeasibilityError.invalidWinner)
      let assignments ← into_assignment solution.compact voterAt targetAt
      let _ ← assignments.mapM (fun a =>
        match snap.voters.find? (fun v => v.1 = a.who) with
        | none => Except.error FeasibilityError.invalidVoter
        | some v =>
          if a.distribution.all (fun e => v.2.2.contains e.1)
              && cfg.feasibilityCheckAssignment a.who a.distribution then
            Except.ok ()
          else Except.error FeasibilityError.invalidVote)
      let stakeOf := fun who =>
        ((snap.voters.find? (fun v => v.1 = who)).map (fun v => v.2.1)).getD 0
      let staked ← ratio_to_staked_normalized stakeOf assignments
      to_supports winners staked

/-- `Module::feasibility_check`: derive the supports and require the
recomputed score to equal the claimed one exactly. -/
def feasibility_check (cfg : Config) (st : State) (solution : RawSolution)
    (compute : ElectionCompute) : Except FeasibilityError ReadySolution :=
  match feasibility_supports cfg st solution with
  | Except.error e => Except.error e
  | Except.ok supports =>
    if evaluate_supports supports = solution.score then
      Except.ok { supports := supports, score := solution.score, compute := compute }
    else Except.error FeasibilityError.invalidScore

/-- `Module::deposit_for`: base + per-byte + per-weight deposit. -/
def deposit_for (cfg : Config) (solution : RawSolution) : Nat :=
  cfg.signedDepositBase + cfg.signedDepositByte * cfg.encodedLen solution
    + cfg.signedDepositWeight * cfg.feasibilityWeight

/-- `Module::reward_for`: base + factor × primary score element. -/
def reward_for (cfg : Config) (solution : RawSolution) : Nat :=
  cfg.signedRewardBase + cfg.signedRewardFactor * solution.score.1

/-- The insertion position computed by `insert_submission`'s
`iter().enumerate().rev().find_map(..).or(Some(0))` scan: one plus the largest
index whose queued score the new score improves upon (the first hit of the
reversed scan), or `0` when it improves upon none. -/
def insert_position (t : Perbill) (score : ElectionScore) :
    List SignedSubmission → Nat
  | [] => 0
  | s :: rest =>
    let r := insert_position t score rest
    if r = 0 then (if is_score_better score s.solution.score t then 1 else 0)
    else r + 1

/-- `Module::insert_submission`: compute the position; reject a
non-improvement into a full queue; otherwise build the submission, insert it,
and drop index 0 (adjusting the returned position) on overflow.  Returns the
claimed position together with the updated queue. -/
def insert_submission (cfg : Config) (who : Nat) (queue : List SignedSubmission)
    (solution : RawSolution) : Option Nat × List SignedSubmission :=
  let pos := insert_position cfg.solutionImprovementThreshold solution.score queue
  if pos = 0 ∧ cfg.maxSignedSubmissions ≤ queue.length then (none, queue)
  else
    let submission : SignedSubmission :=
      { who := who, deposit := deposit_for cfg solution,
        reward := reward_for cfg solution, solution := solution }
    let q1 := queue.insertIdx pos submission
    if cfg.maxSignedSubmissions < q1.length then (some (pos - 1), q1.drop 1)
    else (some pos, q1)

/-- The drain loop of `finalize_signed_phase`, running over the reversed queue
(`pop()` order, best first).  On the first feasible submission: queue it,
unreserve its deposit, credit its reward, and unreserve every not-yet-popped
submission (in the vector's own worst→best order); an infeasible submission is
slashed and the loop continues. -/
def finalize_signed_phase_loop (cfg : Config) (st : State) :
    List SignedSubmission → Bool × Option ReadySolution × List CurrencyOp
  | [] => (false, none, [])
  | best :: rest =>
    match feasibility_check cfg st best.solution ElectionCompute.signed with
    | Except.ok ready =>
      (true, some ready,
        CurrencyOp.unreserve best.who best.deposit
          :: CurrencyOp.depositCreating best.who best.reward
          :: rest.reverse.map (fun s => CurrencyOp.unreserve s.who s.deposit))
    | Except.error _ =>
      let r := finalize_signed_phase_loop cfg st rest
      (r.1, r.2.1, CurrencyOp.slashReserved best.who best.deposit :: r.2.2)

/-- `Module::finalize_signed_phase`: drain the signed submissions from best to
worst; returns whether a solution was found, the queued solution (if any), and
the currency effects. -/
def finalize_signed_phase (cfg : Config) (st : State) :
    Bool × Option ReadySolution × List CurrencyOp :=
  finalize_signed_phase_loop cfg st st.signedSubmissions.reverse

/-- The snapshot stored by `start_signed_phase` (taken from the election data
provider). -/
def data_snapshot (cfg : Config) : RoundSnapshot :=
  { voters := cfg.dataVoters, targets := cfg.dataTargets,
    desiredTargets := cfg.dataDesiredTargets }

/-- `on_initialize(now)`: the phase controller.  Computes the remaining
blocks until the predicted election and transitions
`Off → Signed → Unsigned` exactly as the two guarded match arms do. -/
def on_initialize (cfg : Config) (st : State) (now : Nat) :
    State × List CurrencyOp :=
  let nextElection := max (cfg.nextElectionPrediction now) now
  let signedDeadline := cfg.signedPhase + cfg.unsignedPhase
  let unsignedDeadline := cfg.unsignedPhase
  let remaining := nextElection - now
  match st.currentPhase with
  | Phase.off =>
    if remaining ≤ signedDeadline ∧ unsignedDeadline < remaining then
      ({ st with currentPhase := Phase.signed, round := st.round + 1,
                 snapshot := some (data_snapshot cfg) }, [])
    else (st, [])
  | Phase.signed =>
    if remaining ≤ unsignedDeadline ∧ 0 < remaining then
      let r := finalize_signed_phase cfg st
      ({ st with currentPhase := Phase.unsigned (!r.1) now,
                 signedSubmissions := [],
                 queuedSolution :=
                 match r.2.1 with
                 | some ready => some ready
                 | none => st.queuedSolution }, r.2.2)
    else (st, [])
  | Phase.unsigned _ _ => (st, [])

/-- The `submit` extrinsic: signed origin, signed phase, queue insertion,
deposit reservation, event. -/
def submit (cfg : Config) (st : State) (origin : Origin)
    (solution : RawSolution) :
    Except PalletError (State × List CurrencyOp × List Event) :=
  match origin with
  | Origin.signedBy who =>
    if !(st.currentPhase.is_signed) then Except.error PalletError.earlySubmission
    else
      match insert_submission cfg who st.signedSubmissions solution with
      | (none, _) => Except.error PalletError.queueFull
      | (some index, queue) =>
        let deposit := ((queue.get? index).map (fun s => s.deposit)).getD 0
        if cfg.canReserve who deposit then
          Except.ok ({ st with signedSubmissions := queue }
            , [CurrencyOp.reserve who deposit]
            , [Event.solutionStored ElectionCompute.signed])
        else Except.error PalletError.cannotPayDeposit
  | _ => Except.error PalletError.badOrigin

/-- `unsigned_pre_dispatch_checks`: phase must be open-unsigned; the score
must improve on the queued solution (if any) by the configured threshold. -/
def unsigned_pre_dispatch_checks (cfg : Config) (st : State)
    (solution : RawSolution) : Except PalletError Unit :=
  if !(st.currentPhase.is_unsigned_open) then
    Except.error PalletError.earlySubmission
  else if !(match st.queuedSolution with
            | none => true
            | some q => is_score_better solution.score q.score
                cfg.solutionImprovementThreshold) then
    Except.error PalletError.weakSubmission
  else Except.ok ()

/-- Outcome of dispatching `submit_unsigned`: success with the new state and
events, a recoverable dispatch error, or a panic (an unwind that aborts block
execution, produced by the `.expect(..)` on the feasibility check). -/
inductive UnsignedOutcome where
  | ok (st : State) (events : List Event) : UnsignedOutcome
  | err (e : PalletError) : UnsignedOutcome
  | panics : UnsignedOutcome
deriving DecidableEq, Repr

/-- The `submit_unsigned` extrinsic: none origin, pre-dispatch checks, then
`feasibility_check(..).expect(..)` — an infeasible solution aborts the block;
a feasible one is stored as the queued solution. -/
def submit_unsigned (cfg : Config) (st : State) (origin : Origin)
    (solution : RawSolution) : UnsignedOutcome :=
  match origin with
  | Origin.nobody =>
    match unsigned_pre_dispatch_checks cfg st solution with
    | Except.error e => UnsignedOutcome.err e
    | Except.ok _ =>
      match feasibility_check cfg st solution ElectionCompute.unsigned with
      | Except.error _ => UnsignedOutcome.panics
      | Except.ok ready =>
        UnsignedOutcome.ok { st with queuedSolution := some ready }
          [Event.solutionStored ElectionCompute.unsigned]
  | _ => UnsignedOutcome.err PalletError.badOrigin

/-- `Module::onchain_fallback`: sequential Phragmén (an external pure
function) over the current snapshot. -/
def onchain_fallback (cfg : Config) (st : State) : Except ElectError Supports :=
  match st.snapshot with
  | none => Except.error ElectError.snapshotUnAvailable
  | some snap =>
    match cfg.seqPhragmenElect snap.desiredTargets snap.targets snap.voters with
    | Except.ok supports => Except.ok supports
    | Except.error _ => Except.error ElectError.onChainFallback

/-- `ElectionProvider::elect`: take the queued solution if present, else run
the on-chain fallback; on success reset the phase and clear the snapshot and
emit `ElectionFinalized(Some(compute))`; on failure emit
`ElectionFinalized(None)` (the `map`/`map_err` chain of the source). -/
def elect (cfg : Config) (st : State) :
    Except ElectError Supports × State × List Event :=
  let base : Except ElectError (Supports × ElectionCompute) :=
    match st.queuedSolution with
    | some ready => Except.ok (ready.supports, ready.compute)
    | none =>
      match onchain_fallback cfg st with
      | Except.ok supports => Except.ok (supports, ElectionCompute.onChain)
      | Except.error e => Except.error e
  match base with
  | Except.ok sc =>
    (Except.ok sc.1
    , { st with currentPhase := Phase.off, snapshot := none }
    , [Event.electionFinalized (some sc.2)])
  | Except.error e => (Except.error e, st, [Event.electionFinalized none])

end TwoPhase

namespace SrcUnsigned

/-- `RawSolution` of `src/frame/election-providers/src/two_phase`: compact
edges, claimed score, and the round the solution was computed for. -/
structure RawSolution where
  compact : Compact
  score : ElectionScore
  round : Nat
deriving DecidableEq, Repr

/-- `WitnessData`: voter/target counts attached to an unsigned submission. -/
structure WitnessData where
  voters : Nat
  targets : Nat
deriving DecidableEq, Repr

/-- The storage read by the unsigned validator. -/
structure State where
  currentPhase : Phase
  queuedSolution : Option TwoPhase.ReadySolution
deriving DecidableEq, Repr

/-- Configuration consumed by the unsigned half of the pallet. -/
structure Config where
  unsignedPhase : Nat
  unsignedPriority : Nat
  solutionImprovementThreshold : Perbill

/-- `unsigned_pre_dispatch_checks`: the phase must be open-unsigned
(`EarlySubmission` otherwise), and the score must improve on the queued
solution, if any, by the configured threshold (`WeakSubmission` otherwise). -/
def unsigned_pre_dispatch_checks (cfg : Config) (st : State)
    (solution : RawSolution) : Except TwoPhase.PalletError Unit :=
  if !(st.currentPhase.is_unsigned_open) then
    Except.error TwoPhase.PalletError.earlySubmission
  else if !(match st.queuedSolution with
            | none => true
            | some q => is_score_better solution.score q.score
                cfg.solutionImprovementThreshold) then
    Except.error TwoPhase.PalletError.weakSubmission
  else Except.ok ()

/-- `DEFAULT_LONGEVITY = 25`. -/
def DEFAULT_LONGEVITY : Nat := 25

/-- Sources of an unsigned transaction. -/
inductive TransactionSource where
  | local : TransactionSource
  | inBlock : TransactionSource
  | external : TransactionSource
deriving DecidableEq, Repr

/-- `InvalidTransaction` outcomes used by the validator. -/
inductive InvalidTransaction where
  | call : InvalidTransaction
  | custom (code : Nat) : InvalidTransaction
deriving DecidableEq, Repr

/-- The fields of a built `ValidTransaction` (the provides tag keeps only the
round number; the string tag namespace is constant). -/
structure ValidTransaction where
  priority : Nat
  provides : List Nat
  longevity : Nat
  propagate : Bool
deriving DecidableEq, Repr

/-- The calls of the pallet that the validator can see. -/
inductive Call where
  | submit (solution : RawSolution) : Call
  | submitUnsigned (solution : RawSolution) (witness : WitnessData) : Call
deriving DecidableEq, Repr

/-- Modelled from the spec: the module-error byte extracted by
`dispatch_error_to_invalid` (the variant index of the pallet error inside the
host's `DispatchError::Module`). -/
def pallet_error_code : TwoPhase.PalletError → Nat
  | TwoPhase.PalletError.badOrigin => 0
  | TwoPhase.PalletError.earlySubmission => 1
  | TwoPhase.PalletError.weakSubmission => 2
  | TwoPhase.PalletError.queueFull => 3
  | TwoPhase.PalletError.cannotPayDeposit => 4

/-- `dispatch_error_to_invalid`: wrap the module error number in
`InvalidTransaction::Custom`. -/
def dispatch_error_to_invalid (e : TwoPhase.PalletError) : InvalidTransaction :=
  InvalidTransaction.custom (pallet_error_code e)

/-- `u64` saturation of a wider value (`saturated_into`). -/
def saturate_u64 (x : Nat) : Nat := min x u64Max

/-- `u64` saturating addition (`saturating_add`). -/
def saturating_add_u64 (a b : Nat) : Nat := min (a + b) u64Max

/-- `ValidateUnsigned::validate_unsigned` of `two_phase/unsigned.rs`: only
`Local`/`InBlock` sources pass; the pre-dispatch checks gate the call; the
built transaction has priority `UnsignedPriority + score[0]` (saturating at
`u64`), provides-tag `solution.round`, longevity
`try_into::<u64>(UnsignedPhase).unwrap_or(DEFAULT_LONGEVITY)`, and is
non-propagating. -/
def validate_unsigned (cfg : Config) (st : State) (source : TransactionSource)
    (call : Call) : Except InvalidTransaction ValidTransaction :=
  match call with
  | Call.submitUnsigned solution _ =>
    match source with
    | TransactionSource.local | TransactionSource.inBlock =>
      match unsigned_pre_dispatch_checks cfg st solution with
      | Except.error e => Except.error (dispatch_error_to_invalid e)
      | Except.ok _ =>
        Except.ok
          { priority := saturating_add_u64 cfg.unsignedPriority
              (saturate_u64 solution.score.1),
            provides := [solution.round],
            longevity := if cfg.unsignedPhase ≤ u64Max then cfg.unsignedPhase
              else DEFAULT_LONGEVITY,
            propagate := false }
    | _ => Except.error InvalidTransaction.call
  | _ => Except.error InvalidTransaction.call

/-- The `next_voters` closure of `maximum_compact_len`: move up by `step`
while under the weight target (erroring out of bounds), down by `step` while
over it (erroring on underflow), and stand still on an exact hit.  (A `u32`
overflow of `voters + step` lands in the same `Err` branch as the
out-of-bounds case, since `max_voters` fits `u32`.) -/
def next_voters (maxVoters currentWeight maxWeight voters step : Nat) :
    Except Unit Nat :=
  if currentWeight < maxWeight then
    (if voters + step < maxVoters then Except.ok (voters + step)
     else Except.error ())
  else if maxWeight < currentWeight then
    (if step ≤ voters then Except.ok (voters - step) else Except.error ())
  else Except.ok voters

/-- The binary-search loop of `maximum_compact_len`: halve `step` each
iteration; `Err` breaks out with the current `voters` (`Sum.inr`), an exact
hit returns from the whole function early (`Sum.inl`). -/
def bs_loop (ww : Nat → Nat) (maxWeight maxVoters voters step : Nat) :
    Nat ⊕ Nat :=
  if _h : step = 0 then Sum.inr voters
  else
    match next_voters maxVoters (ww voters) maxWeight voters step with
    | Except.ok next =>
      if next = voters then Sum.inl next
      else bs_loop ww maxWeight maxVoters next (step / 2)
    | Except.error _ => Sum.inr voters
termination_by step
decreasing_by exact Nat.div_lt_self (Nat.pos_of_ne_zero _h) (by omega)

/-- The post-search increment loop: `while voters + 1 <= max_voters &&
weight_with(voters + 1) < max_weight`. -/
def inc_loop (ww : Nat → Nat) (maxWeight maxVoters voters : Nat) : Nat :=
  if _h : voters + 1 ≤ maxVoters ∧ ww (voters + 1) < maxWeight then
    inc_loop ww maxWeight maxVoters (voters + 1)
  else voters
termination_by maxVoters - voters
decreasing_by omega

/-- The post-search decrement loop: `while voters.checked_sub(1).is_some() &&
weight_with(voters) > max_weight`. -/
def dec_loop (ww : Nat → Nat) (maxWeight voters : Nat) : Nat :=
  if h : 1 ≤ voters ∧ maxWeight < ww voters then
    dec_loop ww maxWeight (voters - 1)
  else voters
termination_by voters
decreasing_by omega

/-- The weight closure `weight_with`: `W::submit_unsigned(witness.voters,
witness.targets, active_voters, desired_winners)`. -/
def weight_with (W : Nat → Nat → Nat → Nat → Nat) (witness : WitnessData)
    (desiredWinners active : Nat) : Nat :=
  W witness.voters witness.targets active desiredWinners

/-- `maximum_compact_len`: zero for an empty witness, else binary search from
`witness.voters` downward followed by the two linear adjustment loops, the
result clamped by `witness.voters`.  `W` is the external `WeightInfo`
implementation. -/
def maximum_compact_len (W : Nat → Nat → Nat → Nat → Nat)
    (desiredWinners : Nat) (witness : WitnessData) (maxWeight : Nat) : Nat :=
  if witness.voters < 1 then witness.voters
  else
    let maxVoters := max witness.voters 1
    let ww := weight_with W witness desiredWinners
    match bs_loop ww maxWeight maxVoters maxVoters (maxVoters / 2) with
    | Sum.inl early => early
    | Sum.inr voters =>
      let v1 := inc_loop ww maxWeight maxVoters voters
      let v2 := dec_loop ww maxWeight v1
      min v2 witness.voters

end SrcUnsigned

/-! ## Concrete fixtures used by witnesses and counterexamples -/

/-- A small concrete configuration: default-length phases, one voter and one
target in the data provider, trivial host collaborators. -/
def cfg0 : TwoPhase.Config :=
  { signedPhase := 10, unsignedPhase := 5, maxSignedSubmissions := 3,
    solutionImprovementThreshold := ⟨0⟩,
    signedRewardBase := 0, signedRewardFactor := 0,
    signedDepositBase := 7, signedDepositByte := 0, signedDepositWeight := 0,
    unsignedPriority := 20,
    nextElectionPrediction := fun _ => 30,
    dataVoters := [(1, 10, [10])], dataTargets := [10], dataDesiredTargets := 1,
    feasibilityCheckAssignment := fun _ _ => true,
    encodedLen := fun _ => 0, feasibilityWeight := 0,
    canReserve := fun _ _ => true,
    seqPhragmenElect := fun _ _ _ => Except.error () }

/-- A one-voter/one-target snapshot matching `cfg0`'s data provider. -/
def snap0 : TwoPhase.RoundSnapshot :=
  { voters := [(1, 10, [10])], targets := [10], desiredTargets := 1 }

/-- A solution that is feasible against `snap0` with exact score. -/
def solFeasible : TwoPhase.RawSolution :=
  { compact := [{ voter := 0, distribution := [(0, ACCURACY)] }],
    score := (10, 10, 100) }

/-- The ready solution produced by checking `solFeasible` as unsigned. -/
def readyFeasible : TwoPhase.ReadySolution :=
  { supports := [(10, { total := 10, voters := [(1, 10)] })],
    score := (10, 10, 100), compute := ElectionCompute.unsigned }

/-- A state in the open unsigned phase holding `snap0`. -/
def stUnsigned : TwoPhase.State :=
  { round := 1, currentPhase := Phase.unsigned true 25,
    signedSubmissions := [], queuedSolution := none, snapshot := some snap0 }

/-- An infeasible solution: empty compact but one desired winner. -/
def solInfeasible : TwoPhase.RawSolution := { compact := [], score := (5, 0, 0) }

/-- A state sitting in `Off` with no snapshot, used for the `Off → Signed`
transition. -/
def stOff : TwoPhase.State :=
  { round := 0, currentPhase := Phase.off, signedSubmissions := [],
    queuedSolution := none, snapshot := none }

/-- A state in the open unsigned phase with no snapshot and no queued
solution: `elect` must fail on it. -/
def stNoSolution : TwoPhase.State :=
  { round := 1, currentPhase := Phase.unsigned true 5, signedSubmissions := [],
    queuedSolution := none, snapshot := none }

/-- Whether a queued submission passes the feasibility check (signed
compute). -/
def TwoPhase.feasible (cfg : TwoPhase.Config) (st : TwoPhase.State)
    (s : TwoPhase.SignedSubmission) : Bool :=
  match TwoPhase.feasibility_check cfg st s.solution ElectionCompute.signed with
  | Except.ok _ => true
  | Except.error _ => false

/-- The claim's reading of "sorted worst→best by score": pairwise
non-decreasing in the spec's lexicographic total order on scores. -/
def sorted_worst_to_best (q : List TwoPhase.SignedSubmission) : Prop :=
  q.Pairwise (fun a b => score_le a.solution.score b.solution.score)

instance (q : List TwoPhase.SignedSubmission) : Decidable (sorted_worst_to_best q) := by
  unfold sorted_worst_to_best; infer_instance

/-- The order invariant the insertion code actually maintains: no submission
is strictly threshold-better than any later one ("strictly" meaning better
without the converse also holding). -/
def not_strictly_better_sorted (t : Perbill) (q : List TwoPhase.SignedSubmission) : Prop :=
  q.Pairwise (fun a b =>
    is_score_better a.solution.score b.solution.score t = true →
    is_score_better b.solution.score a.solution.score t = true)

instance (t : Perbill) (q : List TwoPhase.SignedSubmission) :
    Decidable (not_strictly_better_sorted t q) := by
  unfold not_strictly_better_sorted; infer_instance

/-- `cfg0` with a 50% improvement threshold. -/
def cfg3 : TwoPhase.Config := { cfg0 with solutionImprovementThreshold := ⟨500000000⟩ }

/-- A one-element queue holding a submission with primary score 10. -/
def queue3 : List TwoPhase.SignedSubmission :=
  [{ who := 1, deposit := 7, reward := 0, solution := { compact := [], score := (10, 0, 0) } }]

/-- A solution with primary score 14: better than 10, but not 50% better. -/
def sol14 : TwoPhase.RawSolution := { compact := [], score := (14, 0, 0) }

/-- `cfg0` with a signed queue capacity of one. -/
def cfg9 : TwoPhase.Config := { cfg0 with maxSignedSubmissions := 1 }

/-- A signed-phase state whose queue is at capacity for `cfg9`. -/
def stQ9 : TwoPhase.State :=
  { round := 1, currentPhase := Phase.signed,
    signedSubmissions :=
      [{ who := 1, deposit := 7, reward := 0,
         solution := { compact := [], score := (10, 0, 0) } }],
    queuedSolution := none, snapshot := none }

/-- A strictly better solution submitted into the full queue of `stQ9`. -/
def sol20 : TwoPhase.RawSolution := { compact := [], score := (20, 0, 0) }

/-- Configuration for the unsigned validator: `UnsignedPhase = 30`,
`UnsignedPriority = 20`, zero threshold. -/
def cfgU : SrcUnsigned.Config :=
  { unsignedPhase := 30, unsignedPriority := 20,
    solutionImprovementThreshold := ⟨0⟩ }

/-- An open-unsigned state for the validator. -/
def stU : SrcUnsigned.State :=
  { currentPhase := Phase.unsigned true 25, queuedSolution := none }

/-- A submission for round 1 with primary score 5. -/
def solU : SrcUnsigned.RawSolution := { compact := [], score := (5, 0, 0), round := 1 }

/-- The `submit_unsigned` call wrapping `solU`. -/
def callU : SrcUnsigned.Call := SrcUnsigned.Call.submitUnsigned solU { voters := 0, targets := 0 }

/-- Two raw solutions with identical scores but different `round` and
`compact` fields. -/
def solRoundA : SrcUnsigned.RawSolution :=
  { compact := [], score := (5, 0, 0), round := 1 }

/-- See `solRoundA`. -/
def solRoundB : SrcUnsigned.RawSolution :=
  { compact := [{ voter := 3, distribution := [(0, 7)] }], score := (5, 0, 0), round := 99 }

/-- A weight function with a plateau exactly at the weight target:
`0, 10, 20, 20, 20, 30, 30, …` as the active-voter count grows. -/
def plateau_weight (a : Nat) : Nat :=
  min (10 * a) 20 + (if 5 ≤ a then 10 else 0)

/-- `plateau_weight` wrapped as a `WeightInfo::submit_unsigned`
implementation (ignoring the static arguments). -/
def plateauW : Nat → Nat → Nat → Nat → Nat := fun _ _ a _ => plateau_weight a

/-- A constant weight function, everywhere above a small weight target. -/
def constW : Nat → Nat → Nat → Nat → Nat := fun _ _ _ _ => 10

/-- A linear weight function used by the `C5` witness. -/
def linearW : Nat → Nat → Nat → Nat → Nat := fun _ _ a _ => 1000 * a

/-- The number of blocks remaining until the predicted election, as computed
at the top of `on_initialize`. -/
def remaining_at (cfg : TwoPhase.Config) (now : Nat) : Nat :=
  max (cfg.nextElectionPrediction now) now - now

/-! ## Theorems -/

/-- C2: `feasibility_check` returns `Ok` only if the score recomputed from
the target-major supports derived from the solution's assignments equals the
claimed score in all three elements; when the supports derive successfully but
the recomputed score differs in any element, it returns `InvalidScore`. -/
theorem claim_C2_feasibility_score_exact (cfg : TwoPhase.Config)
    (st : TwoPhase.State) (solution : TwoPhase.RawSolution)
    (compute : ElectionCompute) :
    (∀ r, TwoPhase.feasibility_check cfg st solution compute = Except.ok r →
      evaluate_supports r.supports = solution.score) ∧
    (∀ sup, TwoPhase.feasibility_supports cfg st solution = Except.ok sup →
      evaluate_supports sup ≠ solution.score →
      TwoPhase.feasibility_check cfg st solution compute =
        Except.error FeasibilityError.invalidScore) := by
  constructor
  · intro r h
    unfold TwoPhase.feasibility_check at h
    cases hs : TwoPhase.feasibility_supports cfg st solution with
    | error e => rw [hs] at h; exact absurd h (by simp)
    | ok sup =>
      rw [hs] at h
      by_cases he : evaluate_supports sup = solution.score
      · simp only [he, if_pos, Except.ok.injEq] at h
        rw [← h]
        exact he
      · simp [he] at h
  · intro sup hs hne
    unfold TwoPhase.feasibility_check
    rw [hs]
    simp [hne]

/-- Witness for C2: the concrete feasible solution's ready result carries
exactly the claimed score. -/
theorem claim_C2_witness :
    evaluate_supports readyFeasible.supports = solFeasible.score :=
  (claim_C2_feasibility_score_exact cfg0 stUnsigned solFeasible
    ElectionCompute.unsigned).1 readyFeasible (by decide)

/-- C6 counterexample: a failing `elect` (no queued solution, no snapshot)
does not reset the phase to `Off`; it leaves the state untouched and emits
`ElectionFinalized(None)`. -/
theorem claim_C6_counterexample :
    (TwoPhase.elect cfg0 stNoSolution).2.1 = stNoSolution ∧
    (TwoPhase.elect cfg0 stNoSolution).2.1.currentPhase ≠ Phase.off ∧
    (TwoPhase.elect cfg0 stNoSolution).2.2 =
      [TwoPhase.Event.electionFinalized none] := by
  decide

/-- C6 (amended): a call to `elect` that yields supports — from the queued
solution if one exists, otherwise from the on-chain fallback — resets the
phase to `Off`, clears the snapshot and emits `ElectionFinalized(Some
compute)`; a failing call leaves the state unchanged and emits
`ElectionFinalized(None)`. -/
theorem claim_C6_elect_characterization (cfg : TwoPhase.Config)
    (st : TwoPhase.State) :
    TwoPhase.elect cfg st =
      match st.queuedSolution with
      | some ready =>
        (Except.ok ready.supports,
         { st with currentPhase := Phase.off, snapshot := none },
         [TwoPhase.Event.electionFinalized (some ready.compute)])
      | none =>
        match TwoPhase.onchain_fallback cfg st with
        | Except.ok sup =>
          (Except.ok sup,
           { st with currentPhase := Phase.off, snapshot := none },
           [TwoPhase.Event.electionFinalized (some ElectionCompute.onChain)])
        | Except.error e =>
          (Except.error e, st, [TwoPhase.Event.electionFinalized none]) := by
  unfold TwoPhase.elect
  cases st.queuedSolution with
  | some ready => rfl
  | none =>
    cases h : TwoPhase.onchain_fallback cfg st with
    | ok sup => simp [h]
    | error e => simp [h]

/-- C7: once the pre-dispatch checks pass, a failing feasibility check makes
the `submit_unsigned` dispatch panic (aborting block execution) rather than
return a recoverable error, while a passing feasibility check stores the ready
solution and emits `SolutionStored(Unsigned)`. -/
theorem claim_C7_submit_unsigned_fatal (cfg : TwoPhase.Config)
    (st : TwoPhase.State) (solution : TwoPhase.RawSolution)
    (hchecks : TwoPhase.unsigned_pre_dispatch_checks cfg st solution = Except.ok ()) :
    (∀ e, TwoPhase.feasibility_check cfg st solution ElectionCompute.unsigned =
        Except.error e →
      TwoPhase.submit_unsigned cfg st TwoPhase.Origin.nobody solution =
        TwoPhase.UnsignedOutcome.panics) ∧
    (∀ ready, TwoPhase.feasibility_check cfg st solution ElectionCompute.unsigned =
        Except.ok ready →
      TwoPhase.submit_unsigned cfg st TwoPhase.Origin.nobody solution =
        TwoPhase.UnsignedOutcome.ok { st with queuedSolution := some ready }
          [TwoPhase.Event.solutionStored ElectionCompute.unsigned]) := by
  constructor <;> intro x h <;> simp [TwoPhase.submit_unsigned, hchecks, h]

/-- Witness for C7: an infeasible concrete submission panics; a feasible one
is stored. -/
theorem claim_C7_witness :
    TwoPhase.submit_unsigned cfg0 stUnsigned TwoPhase.Origin.nobody solInfeasible =
      TwoPhase.UnsignedOutcome.panics ∧
    TwoPhase.submit_unsigned cfg0 stUnsigned TwoPhase.Origin.nobody solFeasible =
      TwoPhase.UnsignedOutcome.ok
        { stUnsigned with queuedSolution := some readyFeasible }
        [TwoPhase.Event.solutionStored ElectionCompute.unsigned] :=
  ⟨(claim_C7_submit_unsigned_fatal cfg0 stUnsigned solInfeasible (by decide)).1
      FeasibilityError.wrongWinnerCount (by decide),
   (claim_C7_submit_unsigned_fatal cfg0 stUnsigned solFeasible (by decide)).2
      readyFeasible (by decide)⟩

/-- C9: inserting a strictly better submission into a full queue evicts the
worst submission (index 0) but produces no unreserve for the evicted
submitter — the complete effect list of the dispatch is just the new
submitter's reserve (the source itself carries `TODO: must return the bond
here`). -/
theorem claim_C9_eviction_without_refund :
    TwoPhase.submit cfg9 stQ9 (TwoPhase.Origin.signedBy 2) sol20 =
      Except.ok
        ({ stQ9 with signedSubmissions :=
            [{ who := 2, deposit := 7, reward := 0, solution := sol20 }] },
         [TwoPhase.CurrencyOp.reserve 2 7],
         [TwoPhase.Event.solutionStored ElectionCompute.signed]) := by
  decide

/-- C10: the outcome of `unsigned_pre_dispatch_checks` depends only on the
solution's score — two solutions with equal scores, checked in the same
state, get identical results regardless of their `round` and `compact`
fields. -/
theorem claim_C10_checks_score_only (cfg : SrcUnsigned.Config)
    (st : SrcUnsigned.State) (s1 s2 : SrcUnsigned.RawSolution)
    (h : s1.score = s2.score) :
    SrcUnsigned.unsigned_pre_dispatch_checks cfg st s1 =
      SrcUnsigned.unsigned_pre_dispatch_checks cfg st s2 := by
  unfold SrcUnsigned.unsigned_pre_dispatch_checks
  rw [h]

/-- Witness for C10: two concrete solutions differing in round and compact
but with equal scores validate identically. -/
theorem claim_C10_witness :
    SrcUnsigned.unsigned_pre_dispatch_checks cfgU stU solRoundA =
      SrcUnsigned.unsigned_pre_dispatch_checks cfgU stU solRoundB :=
  claim_C10_checks_score_only cfgU stU solRoundA solRoundB (by decide)

/-- `on_initialize` with its preamble folded into `remaining_at`. -/
theorem on_initialize_eq (cfg : TwoPhase.Config) (st : TwoPhase.State) (now : Nat) :
    TwoPhase.on_initialize cfg st now =
      match st.currentPhase with
      | Phase.off =>
        if remaining_at cfg now ≤ cfg.signedPhase + cfg.unsignedPhase ∧
            cfg.unsignedPhase < remaining_at cfg now then
          ({ st with currentPhase := Phase.signed, round := st.round + 1,
                     snapshot := some (TwoPhase.data_snapshot cfg) }, [])
        else (st, [])
      | Phase.signed =>
        if remaining_at cfg now ≤ cfg.unsignedPhase ∧ 0 < remaining_at cfg now then
          ({ st with
              currentPhase := Phase.unsigned (!(TwoPhase.finalize_signed_phase cfg st).1) now,
              signedSubmissions := ([] : List TwoPhase.SignedSubmission),
              queuedSolution :=
                match (TwoPhase.finalize_signed_phase cfg st).2.1 with
                | some ready => some ready
                | none => st.queuedSolution },
            (TwoPhase.finalize_signed_phase cfg st).2.2)
        else (st, [])
      | Phase.unsigned _ _ => (st, []) := rfl

/-- C1: the phase controller's transitions.  From `Off`, when
`UnsignedPhase < remaining ≤ SignedPhase + UnsignedPhase`, the phase becomes
`Signed`, `Round` increments by exactly one and the snapshot is stored; from
`Signed`, when `0 < remaining ≤ UnsignedPhase`, the phase becomes
`Unsigned((!accepted, now))` where `accepted` is `finalize_signed_phase`'s
result and `Round` is unchanged; in every other case phase and `Round` are
unchanged.  `Round` never decreases and increases exactly at `Signed`-phase
entries, so it is strictly monotone across them. -/
theorem claim_C1_on_initialize_transitions (cfg : TwoPhase.Config)
    (st : TwoPhase.State) (now : Nat) :
    ((st.currentPhase = Phase.off ∧
        cfg.unsignedPhase < remaining_at cfg now ∧
        remaining_at cfg now ≤ cfg.signedPhase + cfg.unsignedPhase) →
      (TwoPhase.on_initialize cfg st now).1.currentPhase = Phase.signed ∧
      (TwoPhase.on_initialize cfg st now).1.round = st.round + 1 ∧
      (TwoPhase.on_initialize cfg st now).1.snapshot =
        some (TwoPhase.data_snapshot cfg)) ∧
    ((st.currentPhase = Phase.signed ∧ 0 < remaining_at cfg now ∧
        remaining_at cfg now ≤ cfg.unsignedPhase) →
      (TwoPhase.on_initialize cfg st now).1.currentPhase =
        Phase.unsigned (!(TwoPhase.finalize_signed_phase cfg st).1) now ∧
      (TwoPhase.on_initialize cfg st now).1.round = st.round) ∧
    ((¬(st.currentPhase = Phase.off ∧
        cfg.unsignedPhase < remaining_at cfg now ∧
        remaining_at cfg now ≤ cfg.signedPhase + cfg.unsignedPhase) ∧
      ¬(st.currentPhase = Phase.signed ∧ 0 < remaining_at cfg now ∧
        remaining_at cfg now ≤ cfg.unsignedPhase)) →
      (TwoPhase.on_initialize cfg st now).1.currentPhase = st.currentPhase ∧
      (TwoPhase.on_initialize cfg st now).1.round = st.round) ∧
    ((TwoPhase.on_initialize cfg st now).1.round = st.round ∨
      ((TwoPhase.on_initialize cfg st now).1.round = st.round + 1 ∧
       st.currentPhase = Phase.off ∧
       (TwoPhase.on_initialize cfg st now).1.currentPhase = Phase.signed)) := by
  rw [on_initialize_eq]
  cases hph : st.currentPhase <;> dsimp only <;>
    try split_ifs with hc
  all_goals simp_all
  all_goals omega

/-- Witness for C1: with the default-like configuration at block 20
(`remaining = 10`), an `Off` state enters `Signed`, increments `Round` from 0
to 1 and stores the data provider's snapshot. -/
theorem claim_C1_witness :
    (TwoPhase.on_initialize cfg0 stOff 20).1.currentPhase = Phase.signed ∧
    (TwoPhase.on_initialize cfg0 stOff 20).1.round = stOff.round + 1 ∧
    (TwoPhase.on_initialize cfg0 stOff 20).1.snapshot =
      some (TwoPhase.data_snapshot cfg0) :=
  (claim_C1_on_initialize_transitions cfg0 stOff 20).1 ⟨rfl, by decide, by decide⟩

/-- C8 counterexample: with `UnsignedPhase = 30` the accepted transaction's
longevity is 30, not `min(UnsignedPhase, DEFAULT_LONGEVITY) = 25` as the claim
states. -/
theorem claim_C8_counterexample :
    SrcUnsigned.validate_unsigned cfgU stU SrcUnsigned.TransactionSource.local callU =
      Except.ok { priority := 25, provides := [1], longevity := 30, propagate := false } ∧
    min cfgU.unsignedPhase SrcUnsigned.DEFAULT_LONGEVITY = 25 := by
  decide

/-- C8 (amended): an accepted `submit_unsigned` transaction has priority
`UnsignedPriority + score[0]` saturating at `u64`, provides-tag
`solution.round`, longevity equal to `UnsignedPhase` itself whenever it fits
in a `u64` (`DEFAULT_LONGEVITY = 25` only when the conversion fails), and
`propagate = false`; sources other than `Local`/`InBlock` are rejected with
`Invalid::Call`. -/
theorem claim_C8_validate_unsigned_fields (cfg : SrcUnsigned.Config)
    (st : SrcUnsigned.State) (source : SrcUnsigned.TransactionSource)
    (solution : SrcUnsigned.RawSolution) (w : SrcUnsigned.WitnessData) :
    ((source = SrcUnsigned.TransactionSource.local ∨
        source = SrcUnsigned.TransactionSource.inBlock) →
      ∀ vt, SrcUnsigned.validate_unsigned cfg st source
          (SrcUnsigned.Call.submitUnsigned solution w) = Except.ok vt →
        vt.priority = SrcUnsigned.saturating_add_u64 cfg.unsignedPriority
            (SrcUnsigned.saturate_u64 solution.score.1) ∧
        vt.provides = [solution.round] ∧
        vt.longevity = (if cfg.unsignedPhase ≤ u64Max then cfg.unsignedPhase
            else SrcUnsigned.DEFAULT_LONGEVITY) ∧
        vt.propagate = false) ∧
    (source = SrcUnsigned.TransactionSource.external →
      SrcUnsigned.validate_unsigned cfg st source
          (SrcUnsigned.Call.submitUnsigned solution w) =
        Except.error SrcUnsigned.InvalidTransaction.call) := by
  constructor
  · rintro (rfl | rfl) vt h <;>
      · unfold SrcUnsigned.validate_unsigned at h
        dsimp only at h
        cases hc : SrcUnsigned.unsigned_pre_dispatch_checks cfg st solution with
        | error e => rw [hc] at h; exact absurd h (by simp)
        | ok u => rw [hc] at h; injection h with h; rw [← h]; exact ⟨rfl, rfl, rfl, rfl⟩
  · rintro rfl; rfl

/-- Witness for C8: the concrete accepted transaction has the amended
fields. -/
theorem claim_C8_witness :
    ({ priority := 25, provides := [1], longevity := 30, propagate := false } :
        SrcUnsigned.ValidTransaction).priority =
      SrcUnsigned.saturating_add_u64 cfgU.unsignedPriority
        (SrcUnsigned.saturate_u64 solU.score.1) ∧
    ({ priority := 25, provides := [1], longevity := 30, propagate := false } :
        SrcUnsigned.ValidTransaction).provides = [solU.round] ∧
    ({ priority := 25, provides := [1], longevity := 30, propagate := false } :
        SrcUnsigned.ValidTransaction).longevity =
      (if cfgU.unsignedPhase ≤ u64Max then cfgU.unsignedPhase
       else SrcUnsigned.DEFAULT_LONGEVITY) ∧
    ({ priority := 25, provides := [1], longevity := 30, propagate := false } :
        SrcUnsigned.ValidTransaction).propagate = false :=
  (claim_C8_validate_unsigned_fields cfgU stU SrcUnsigned.TransactionSource.local
      solU { voters := 0, targets := 0 }).1 (Or.inl rfl) _ (by decide)

/-- The drain loop characterized by the first feasible submission of its
input: everything before it (in pop order) is slashed, it is queued and
rewarded, everything after it (the still-unpopped prefix of the storage
vector) is unreserved. -/
theorem finalize_loop_eq (cfg : TwoPhase.Config) (st : TwoPhase.State)
    (l : List TwoPhase.SignedSubmission) :
    TwoPhase.finalize_signed_phase_loop cfg st l =
      match l.dropWhile (fun s => !(TwoPhase.feasible cfg st s)) with
      | [] =>
        (false, none,
         (l.takeWhile (fun s => !(TwoPhase.feasible cfg st s))).map
           (fun s => TwoPhase.CurrencyOp.slashReserved s.who s.deposit))
      | w :: rest =>
        (true,
         (TwoPhase.feasibility_check cfg st w.solution ElectionCompute.signed).toOption,
         (l.takeWhile (fun s => !(TwoPhase.feasible cfg st s))).map
             (fun s => TwoPhase.CurrencyOp.slashReserved s.who s.deposit)
           ++ TwoPhase.CurrencyOp.unreserve w.who w.deposit
           :: TwoPhase.CurrencyOp.depositCreating w.who w.reward
           :: rest.reverse.map (fun s => TwoPhase.CurrencyOp.unreserve s.who s.deposit)) := by
  induction l with
  | nil => rfl
  | cons b l ih =>
    cases hfb : TwoPhase.feasibility_check cfg st b.solution ElectionCompute.signed with
    | ok ready =>
      have hb : TwoPhase.feasible cfg st b = true := by
        unfold TwoPhase.feasible; rw [hfb]
      simp [TwoPhase.finalize_signed_phase_loop, hfb, hb, List.dropWhile_cons,
        List.takeWhile_cons, Except.toOption]
    | error e =>
      have hb : TwoPhase.feasible cfg st b = false := by
        unfold TwoPhase.feasible; rw [hfb]
      simp only [TwoPhase.finalize_signed_phase_loop, hfb]
      rw [ih]
      simp only [List.dropWhile_cons, List.takeWhile_cons, hb, Bool.not_false,
        if_true, ite_true]
      cases l.dropWhile (fun s => !(TwoPhase.feasible cfg st s)) with
      | nil => simp
      | cons w rest => simp

/-- C4: `finalize_signed_phase` examines the queued submissions from best to
worst (the reversed storage order).  The first feasible one is stored as the
queued solution, its submitter's deposit is unreserved and its reward
credited, and no later submission is examined; every examined infeasible
submission is slashed for its full deposit; every never-examined submission is
unreserved in full (no slash, no reward); the returned flag says whether a
solution was accepted. -/
theorem claim_C4_finalize_best_to_worst (cfg : TwoPhase.Config)
    (st : TwoPhase.State) :
    TwoPhase.finalize_signed_phase cfg st =
      match st.signedSubmissions.reverse.dropWhile
          (fun s => !(TwoPhase.feasible cfg st s)) with
      | [] =>
        (false, none,
         (st.signedSubmissions.reverse.takeWhile
             (fun s => !(TwoPhase.feasible cfg st s))).map
           (fun s => TwoPhase.CurrencyOp.slashReserved s.who s.deposit))
      | w :: rest =>
        (true,
         (TwoPhase.feasibility_check cfg st w.solution ElectionCompute.signed).toOption,
         (st.signedSubmissions.reverse.takeWhile
             (fun s => !(TwoPhase.feasible cfg st s))).map
             (fun s => TwoPhase.CurrencyOp.slashReserved s.who s.deposit)
           ++ TwoPhase.CurrencyOp.unreserve w.who w.deposit
           :: TwoPhase.CurrencyOp.depositCreating w.who w.reward
           :: rest.reverse.map (fun s => TwoPhase.CurrencyOp.unreserve s.who s.deposit)) :=
  finalize_loop_eq cfg st st.signedSubmissions.reverse

/-- Unfolding of `insert_position` on a cons cell. -/
theorem insert_position_cons (t : Perbill) (sc : ElectionScore)
    (x : TwoPhase.SignedSubmission) (xs : List TwoPhase.SignedSubmission) :
    TwoPhase.insert_position t sc (x :: xs) =
      if TwoPhase.insert_position t sc xs = 0 then
        (if is_score_better sc x.solution.score t then 1 else 0)
      else TwoPhase.insert_position t sc xs + 1 := rfl

/-- The insertion position never exceeds the queue length. -/
theorem insert_position_le (t : Perbill) (sc : ElectionScore) :
    ∀ q : List TwoPhase.SignedSubmission,
      TwoPhase.insert_position t sc q ≤ q.length := by
  intro q
  induction q with
  | nil => exact Nat.le_refl 0
  | cons x xs ih =>
    rw [insert_position_cons]
    by_cases hr : TwoPhase.insert_position t sc xs = 0
    · rw [if_pos hr]
      by_cases hp : is_score_better sc x.solution.score t = true <;>
        simp [hp, List.length_cons]
    · rw [if_neg hr]
      simp only [List.length_cons]
      omega

/-- A zero insertion position means the new score improves on nothing. -/
theorem insert_position_zero_all (t : Perbill) (sc : ElectionScore)
    (q : List TwoPhase.SignedSubmission)
    (h : TwoPhase.insert_position t sc q = 0) :
    ∀ b ∈ q, is_score_better sc b.solution.score t = false := by
  induction q with
  | nil => intro b hb; cases hb
  | cons x xs ih =>
    rw [insert_position_cons] at h
    by_cases hr : TwoPhase.insert_position t sc xs = 0
    · rw [if_pos hr] at h
      intro b hb
      rcases List.mem_cons.mp hb with rfl | hb'
      · by_cases hp : is_score_better sc b.solution.score t = true
        · rw [if_pos hp] at h; cases h
        · simpa using hp
      · exact ih hr b hb'
    · rw [if_neg hr] at h; cases h

/-- A nonzero insertion position exhibits a queued score that the new score
improves upon. -/
theorem insert_position_pos_exists (t : Perbill) (sc : ElectionScore)
    (q : List TwoPhase.SignedSubmission)
    (h : TwoPhase.insert_position t sc q ≠ 0) :
    ∃ c ∈ q, is_score_better sc c.solution.score t = true := by
  induction q with
  | nil => exact absurd rfl h
  | cons x xs ih =>
    rw [insert_position_cons] at h
    by_cases hr : TwoPhase.insert_position t sc xs = 0
    · rw [if_pos hr] at h
      by_cases hp : is_score_better sc x.solution.score t = true
      · exact ⟨x, List.mem_cons_self x xs, hp⟩
      · rw [if_neg hp] at h; exact absurd rfl h
    · obtain ⟨c, hc, hpc⟩ := ih hr
      exact ⟨c, List.mem_cons_of_mem x hc, hpc⟩

/-- Threshold-improvement chains upward: if `x` improves on `s` and `s`
improves on `c`, then `x` improves on `c`. -/
theorem is_better_chain_up {t : Perbill} {x s c : ElectionScore}
    (hxs : is_score_better x s t = true) (hsc : is_score_better s c t = true) :
    is_score_better x c t = true := by
  simp only [is_score_better, threshold_scale, decide_eq_true_eq] at *
  omega

/-- Threshold-improvement chains downward: if `c` improves on `x` and `s`
improves on `c`, then `s` improves on `x`. -/
theorem is_better_chain_down {t : Perbill} {s c x : ElectionScore}
    (hcx : is_score_better c x t = true) (hsc : is_score_better s c t = true) :
    is_score_better s x t = true := by
  simp only [is_score_better, threshold_scale, decide_eq_true_eq] at *
  omega

/-- Inserting at the computed position preserves the queue's order invariant:
no submission strictly threshold-better than a later one. -/
theorem not_strictly_better_sorted_insert (t : Perbill)
    (sub : TwoPhase.SignedSubmission) (q : List TwoPhase.SignedSubmission)
    (hq : not_strictly_better_sorted t q) :
    not_strictly_better_sorted t
      (q.insertIdx (TwoPhase.insert_position t sub.solution.score q) sub) := by
  induction q with
  | nil =>
    simp [TwoPhase.insert_position, List.insertIdx_zero, not_strictly_better_sorted]
  | cons x xs ih =>
    have hx := (List.pairwise_cons.mp hq).1
    have hxs : not_strictly_better_sorted t xs := (List.pairwise_cons.mp hq).2
    rw [insert_position_cons]
    by_cases hr : TwoPhase.insert_position t sub.solution.score xs = 0
    · have hall := insert_position_zero_all t sub.solution.score xs hr
      rw [if_pos hr]
      cases hpx : is_score_better sub.solution.score x.solution.score t with
      | false =>
        rw [if_neg (by simp [hpx]), List.insertIdx_zero]
        refine List.pairwise_cons.mpr ⟨?_, hq⟩
        intro b hb hbetter
        rcases List.mem_cons.mp hb with rfl | hb'
        · rw [hpx] at hbetter; cases hbetter
        · rw [hall b hb'] at hbetter; cases hbetter
      | true =>
        rw [if_pos (by simp [hpx])]
        rw [show (1 : Nat) = 0 + 1 from rfl, List.insertIdx_succ_cons,
          List.insertIdx_zero]
        refine List.pairwise_cons.mpr ⟨?_, List.pairwise_cons.mpr ⟨?_, hxs⟩⟩
        · intro b hb
          rcases List.mem_cons.mp hb with rfl | hb'
          · exact fun _ => hpx
          · exact hx b hb'
        · intro b hb hbetter
          rw [hall b hb] at hbetter; cases hbetter
    · obtain ⟨c, hc, hpc⟩ := insert_position_pos_exists t sub.solution.score xs hr
      rw [if_neg hr, List.insertIdx_succ_cons]
      refine List.pairwise_cons.mpr ⟨?_, ih hxs⟩
      intro b hb
      have hb' : b = sub ∨ b ∈ xs :=
        (List.mem_insertIdx (insert_position_le t sub.solution.score xs)).mp hb
      rcases hb' with rfl | hb'
      · intro hxsub
        exact is_better_chain_down (hx c hc (is_better_chain_up hxsub hpc)) hpc
      · exact hx b hb'

/-- C3 counterexample: with a 50% improvement threshold, inserting a solution
with primary score 14 ahead of a queued score 10 (position 0, queue not full)
leaves the queue no longer sorted worst→best in the score order, refuting the
claim's sortedness postcondition as stated. -/
theorem claim_C3_counterexample :
    sorted_worst_to_best queue3 ∧
    queue3.length ≤ cfg3.maxSignedSubmissions ∧
    ¬ sorted_worst_to_best (TwoPhase.insert_submission cfg3 2 queue3 sol14).2 := by
  decide

/-- C3 (amended): on a queue in which no submission is strictly
threshold-better than a later one and whose length is within
`MaxSignedSubmissions`, `insert_submission` preserves both properties
(full score-sortedness fails: with a positive threshold a better-but-not-
threshold-better solution is inserted at position 0, below weaker scores);
and when the computed position is 0 with a full queue, it returns `None` and
leaves the queue unchanged. -/
theorem claim_C3_queue_invariants (cfg : TwoPhase.Config) (who : Nat)
    (queue : List TwoPhase.SignedSubmission) (solution : TwoPhase.RawSolution)
    (hsorted : not_strictly_better_sorted cfg.solutionImprovementThreshold queue)
    (hlen : queue.length ≤ cfg.maxSignedSubmissions) :
    (TwoPhase.insert_submission cfg who queue solution).2.length ≤
      cfg.maxSignedSubmissions ∧
    not_strictly_better_sorted cfg.solutionImprovementThreshold
      (TwoPhase.insert_submission cfg who queue solution).2 ∧
    (TwoPhase.insert_position cfg.solutionImprovementThreshold solution.score
        queue = 0 ∧ cfg.maxSignedSubmissions ≤ queue.length →
      (TwoPhase.insert_submission cfg who queue solution).1 = none ∧
      (TwoPhase.insert_submission cfg who queue solution).2 = queue) := by
  by_cases hrej : TwoPhase.insert_position cfg.solutionImprovementThreshold
      solution.score queue = 0 ∧ cfg.maxSignedSubmissions ≤ queue.length
  · have he : TwoPhase.insert_submission cfg who queue solution = (none, queue) := by
      unfold TwoPhase.insert_submission
      rw [if_pos hrej]
    rw [he]
    exact ⟨hlen, hsorted, fun _ => ⟨rfl, rfl⟩⟩
  · have hple := insert_position_le cfg.solutionImprovementThreshold
      solution.score queue
    have hlen1 : (queue.insertIdx
        (TwoPhase.insert_position cfg.solutionImprovementThreshold
          solution.score queue)
        { who := who, deposit := TwoPhase.deposit_for cfg solution,
          reward := TwoPhase.reward_for cfg solution,
          solution := solution }).length = queue.length + 1 :=
      List.length_insertIdx _ _ hple
    have hpair := not_strictly_better_sorted_insert
      cfg.solutionImprovementThreshold
      { who := who, deposit := TwoPhase.deposit_for cfg solution,
        reward := TwoPhase.reward_for cfg solution, solution := solution }
      queue hsorted
    by_cases hover : cfg.maxSignedSubmissions <
        (queue.insertIdx
          (TwoPhase.insert_position cfg.solutionImprovementThreshold
            solution.score queue)
          { who := who, deposit := TwoPhase.deposit_for cfg solution,
            reward := TwoPhase.reward_for cfg solution,
            solution := solution }).length
    · have he : TwoPhase.insert_submission cfg who queue solution =
          (some (TwoPhase.insert_position cfg.solutionImprovementThreshold
              solution.score queue - 1),
           (queue.insertIdx
             (TwoPhase.insert_position cfg.solutionImprovementThreshold
               solution.score queue)
             { who := who, deposit := TwoPhase.deposit_for cfg solution,
               reward := TwoPhase.reward_for cfg solution,
               solution := solution }).drop 1) := by
        unfold TwoPhase.insert_submission
        rw [if_neg hrej, if_pos hover]
      rw [he]
      refine ⟨?_, ?_, fun hx => absurd hx hrej⟩
      · rw [List.length_drop, hlen1]; omega
      · exact List.Pairwise.sublist (List.drop_sublist 1 _) hpair
    · have he : TwoPhase.insert_submission cfg who queue solution =
          (some (TwoPhase.insert_position cfg.solutionImprovementThreshold
              solution.score queue),
           queue.insertIdx
             (TwoPhase.insert_position cfg.solutionImprovementThreshold
               solution.score queue)
             { who := who, deposit := TwoPhase.deposit_for cfg solution,
               reward := TwoPhase.reward_for cfg solution,
               solution := solution }) := by
        unfold TwoPhase.insert_submission
        rw [if_neg hrej, if_neg hover]
      rw [he]
      refine ⟨?_, hpair, fun hx => absurd hx hrej⟩
      rw [hlen1]; omega

/-- Witness for C3: the amended invariants at a concrete insertion. -/
theorem claim_C3_witness :
    (TwoPhase.insert_submission cfg0 2 queue3 sol14).2.length ≤
      cfg0.maxSignedSubmissions ∧
    not_strictly_better_sorted cfg0.solutionImprovementThreshold
      (TwoPhase.insert_submission cfg0 2 queue3 sol14).2 ∧
    (TwoPhase.insert_position cfg0.solutionImprovementThreshold sol14.score
        queue3 = 0 ∧ cfg0.maxSignedSubmissions ≤ queue3.length →
      (TwoPhase.insert_submission cfg0 2 queue3 sol14).1 = none ∧
      (TwoPhase.insert_submission cfg0 2 queue3 sol14).2 = queue3) :=
  claim_C3_queue_invariants cfg0 2 queue3 sol14 (by decide) (by decide)

/-- `next_voters` can only answer with the current `voters` on an exact
weight hit (for a positive step). -/
theorem next_voters_self (mv cw mw voters step : Nat) (hs : step ≠ 0)
    (h : SrcUnsigned.next_voters mv cw mw voters step = Except.ok voters) :
    cw = mw := by
  unfold SrcUnsigned.next_voters at h
  split_ifs at h with h1 h2 h3 h4 <;>
    first
      | (injection h with h; omega)
      | cases h
      | omega

/-- `next_voters` never moves above `max_voters`. -/
theorem next_voters_ok_le (mv cw mw voters step next : Nat) (hv : voters ≤ mv)
    (h : SrcUnsigned.next_voters mv cw mw voters step = Except.ok next) :
    next ≤ mv := by
  unfold SrcUnsigned.next_voters at h
  split_ifs at h with h1 h2 h3 h4 <;>
    first
      | (injection h with h; omega)
      | cases h
      | omega

/-- An early return of the binary search hits the weight target exactly and
stays within the voter bound. -/
theorem bs_loop_inl (ww : Nat → Nat) (mw mv : Nat) :
    ∀ step voters e, voters ≤ mv →
      SrcUnsigned.bs_loop ww mw mv voters step = Sum.inl e →
      e ≤ mv ∧ ww e = mw := by
  intro step
  induction step using Nat.strong_induction_on with
  | _ step ih =>
    intro voters e hv h
    rw [SrcUnsigned.bs_loop] at h
    by_cases hs : step = 0
    · rw [dif_pos hs] at h; cases h
    · rw [dif_neg hs] at h
      cases hnv : SrcUnsigned.next_voters mv (ww voters) mw voters step with
      | ok next =>
        rw [hnv] at h
        dsimp only at h
        by_cases hne : next = voters
        · rw [if_pos hne] at h
          injection h with h
          subst hne
          subst h
          exact ⟨hv, next_voters_self _ _ _ _ _ hs hnv⟩
        · rw [if_neg hne] at h
          exact ih (step / 2) (Nat.div_lt_self (Nat.pos_of_ne_zero hs) (by omega))
            next e (next_voters_ok_le mv (ww voters) mw voters step next hv hnv) h
      | error u => rw [hnv] at h; dsimp only at h; cases h

/-- A normal exit of the binary search stays within the voter bound. -/
theorem bs_loop_inr (ww : Nat → Nat) (mw mv : Nat) :
    ∀ step voters v, voters ≤ mv →
      SrcUnsigned.bs_loop ww mw mv voters step = Sum.inr v → v ≤ mv := by
  intro step
  induction step using Nat.strong_induction_on with
  | _ step ih =>
    intro voters v hv h
    rw [SrcUnsigned.bs_loop] at h
    by_cases hs : step = 0
    · rw [dif_pos hs] at h; injection h with h; omega
    · rw [dif_neg hs] at h
      cases hnv : SrcUnsigned.next_voters mv (ww voters) mw voters step with
      | ok next =>
        rw [hnv] at h
        dsimp only at h
        by_cases hne : next = voters
        · rw [if_pos hne] at h; cases h
        · rw [if_neg hne] at h
          exact ih (step / 2) (Nat.div_lt_self (Nat.pos_of_ne_zero hs) (by omega))
            next v (next_voters_ok_le mv (ww voters) mw voters step next hv hnv) h
      | error u => rw [hnv] at h; dsimp only at h; injection h with h; omega

/-- The increment loop only moves up, stays within the bound, and stops at
the bound or right below a weight at or above the target. -/
theorem inc_loop_spec (ww : Nat → Nat) (mw mv : Nat) :
    ∀ k voters, mv - voters ≤ k → voters ≤ mv →
      voters ≤ SrcUnsigned.inc_loop ww mw mv voters ∧
      SrcUnsigned.inc_loop ww mw mv voters ≤ mv ∧
      (SrcUnsigned.inc_loop ww mw mv voters = mv ∨
       mw ≤ ww (SrcUnsigned.inc_loop ww mw mv voters + 1)) := by
  intro k
  induction k with
  | zero =>
    intro voters hk hv
    have hvm : voters = mv := by omega
    have he : SrcUnsigned.inc_loop ww mw mv voters = voters := by
      rw [SrcUnsigned.inc_loop, dif_neg]
      omega
    rw [he]
    exact ⟨Nat.le_refl _, hv, Or.inl hvm⟩
  | succ k ih =>
    intro voters hk hv
    by_cases hg : voters + 1 ≤ mv ∧ ww (voters + 1) < mw
    · have he : SrcUnsigned.inc_loop ww mw mv voters =
          SrcUnsigned.inc_loop ww mw mv (voters + 1) := by
        conv_lhs => rw [SrcUnsigned.inc_loop]
        rw [dif_pos hg]
      obtain ⟨h1, h2, h3⟩ := ih (voters + 1) (by omega) (by omega)
      rw [he]
      exact ⟨by omega, h2, h3⟩
    · have he : SrcUnsigned.inc_loop ww mw mv voters = voters := by
        rw [SrcUnsigned.inc_loop, dif_neg hg]
      rw [he]
      refine ⟨Nat.le_refl _, hv, ?_⟩
      by_cases hb : voters + 1 ≤ mv
      · right
        have : ¬ ww (voters + 1) < mw := fun hlt => hg ⟨hb, hlt⟩
        omega
      · left; omega

/-- The decrement loop only moves down, ends at or below the weight target
(given the target is satisfiable at zero voters), and either did not move or
sits right below a weight strictly above the target. -/
theorem dec_loop_spec (ww : Nat → Nat) (mw : Nat) (h0 : ww 0 ≤ mw) :
    ∀ voters,
      SrcUnsigned.dec_loop ww mw voters ≤ voters ∧
      ww (SrcUnsigned.dec_loop ww mw voters) ≤ mw ∧
      (SrcUnsigned.dec_loop ww mw voters = voters ∨
       mw < ww (SrcUnsigned.dec_loop ww mw voters + 1)) := by
  intro voters
  induction voters using Nat.strong_induction_on with
  | _ voters ih =>
    by_cases hg : 1 ≤ voters ∧ mw < ww voters
    · have he : SrcUnsigned.dec_loop ww mw voters =
          SrcUnsigned.dec_loop ww mw (voters - 1) := by
        conv_lhs => rw [SrcUnsigned.dec_loop]
        rw [dif_pos hg]
      obtain ⟨h1, h2, h3⟩ := ih (voters - 1) (by omega)
      rw [he]
      refine ⟨by omega, h2, Or.inr ?_⟩
      rcases h3 with h3 | h3
      · rw [h3]
        have hv1 : voters - 1 + 1 = voters := by omega
        rw [hv1]
        exact hg.2
      · exact h3
    · have he : SrcUnsigned.dec_loop ww mw voters = voters := by
        rw [SrcUnsigned.dec_loop, dif_neg hg]
      rw [he]
      refine ⟨Nat.le_refl _, ?_, Or.inl rfl⟩
      by_cases hv : voters = 0
      · rw [hv]; exact h0
      · have : ¬ mw < ww voters := fun hlt => hg ⟨by omega, hlt⟩
        omega

/-- C5 counterexample.  First input: a monotone weight with a plateau exactly
at the target (`0,10,20,20,20,30` for 0..5 active voters), `witness.voters =
5`, `max_weight = 20` — the search early-returns 3, yet `3 ≠ 5` and
`weight(4) = 20 ≤ 20`, refuting the claim's maximality disjunction.  Second
input: a constant weight 10 with target 5 — the function returns 0 with
`weight(0) = 10 > 5`, refuting `weight(v) ≤ max_weight` (and failing the
source's own `debug_assert`). -/
theorem claim_C5_counterexample :
    Monotone plateau_weight ∧
    SrcUnsigned.maximum_compact_len plateauW 0 ⟨5, 0⟩ 20 = 3 ∧
    ¬((3 : Nat) = 5 ∨ 20 < plateauW 5 0 (3 + 1) 0) ∧
    Monotone (fun _ : Nat => (10 : Nat)) ∧
    SrcUnsigned.maximum_compact_len constW 0 ⟨3, 0⟩ 5 = 0 ∧
    ¬(constW 3 0 0 0 ≤ 5) := by
  refine ⟨?_, ?_, by decide, fun a b _ => Nat.le_refl 10, ?_, by decide⟩
  · intro a b h
    unfold plateau_weight
    have h1 : min (10 * a) 20 ≤ min (10 * b) 20 :=
      min_le_min (by omega) (Nat.le_refl 20)
    by_cases h5a : 5 ≤ a
    · have h5b : 5 ≤ b := le_trans h5a h
      simp only [if_pos h5a, if_pos h5b]
      omega
    · by_cases h5b : 5 ≤ b <;> simp only [if_pos, if_neg, h5a, h5b, if_true, if_false] <;> omega
  · simp [SrcUnsigned.maximum_compact_len, SrcUnsigned.bs_loop, SrcUnsigned.inc_loop,
      SrcUnsigned.dec_loop, SrcUnsigned.next_voters, SrcUnsigned.weight_with,
      plateauW, plateau_weight]
  · simp [SrcUnsigned.maximum_compact_len, SrcUnsigned.bs_loop, SrcUnsigned.inc_loop,
      SrcUnsigned.dec_loop, SrcUnsigned.next_voters, SrcUnsigned.weight_with, constW]

/-- C5 (amended): for a weight function monotone non-decreasing in
`active_voters` whose value at zero voters is within `max_weight`,
`maximum_compact_len` returns `v ∈ [0, witness.voters]` with
`weight(v) ≤ max_weight`, and either `v = witness.voters` or
`weight(v+1) ≥ max_weight` (the strict `>` of the claim fails on plateaus at
exactly `max_weight`; without the zero-voter hypothesis even
`weight(v) ≤ max_weight` fails). -/
theorem claim_C5_maximum_compact_len_bounds (W : Nat → Nat → Nat → Nat → Nat)
    (dw : Nat) (witness : SrcUnsigned.WitnessData) (mw : Nat)
    (hmono : Monotone (fun a => SrcUnsigned.weight_with W witness dw a))
    (h0 : SrcUnsigned.weight_with W witness dw 0 ≤ mw) :
    SrcUnsigned.maximum_compact_len W dw witness mw ≤ witness.voters ∧
    SrcUnsigned.weight_with W witness dw
      (SrcUnsigned.maximum_compact_len W dw witness mw) ≤ mw ∧
    (SrcUnsigned.maximum_compact_len W dw witness mw = witness.voters ∨
     mw ≤ SrcUnsigned.weight_with W witness dw
       (SrcUnsigned.maximum_compact_len W dw witness mw + 1)) := by
  unfold SrcUnsigned.maximum_compact_len
  by_cases hz : witness.voters < 1
  · rw [if_pos hz]
    have hv0 : witness.voters = 0 := by omega
    refine ⟨Nat.le_refl _, ?_, Or.inl rfl⟩
    rw [hv0]
    exact h0
  · rw [if_neg hz]
    have hmv : max witness.voters 1 = witness.voters := by omega
    dsimp only
    rw [hmv]
    cases hbs : SrcUnsigned.bs_loop (SrcUnsigned.weight_with W witness dw) mw
        witness.voters witness.voters (witness.voters / 2) with
    | inl e =>
      dsimp only
      obtain ⟨he1, he2⟩ := bs_loop_inl (SrcUnsigned.weight_with W witness dw) mw
        witness.voters (witness.voters / 2) witness.voters e (Nat.le_refl _) hbs
      refine ⟨he1, le_of_eq he2, Or.inr ?_⟩
      rw [← he2]
      exact hmono (by omega)
    | inr v =>
      dsimp only
      have hv := bs_loop_inr (SrcUnsigned.weight_with W witness dw) mw
        witness.voters (witness.voters / 2) witness.voters v (Nat.le_refl _) hbs
      obtain ⟨hi1, hi2, hi3⟩ := inc_loop_spec (SrcUnsigned.weight_with W witness dw)
        mw witness.voters (witness.voters - v) v (Nat.le_refl _) hv
      obtain ⟨hd1, hd2, hd3⟩ := dec_loop_spec (SrcUnsigned.weight_with W witness dw)
        mw h0 (SrcUnsigned.inc_loop (SrcUnsigned.weight_with W witness dw) mw
          witness.voters v)
      rw [min_eq_left (by omega)]
      refine ⟨by omega, hd2, ?_⟩
      rcases hd3 with hd3 | hd3
      · rcases hi3 with hi3 | hi3
        · left; omega
        · right; rw [hd3]; exact hi3
      · exact Or.inr (le_of_lt hd3)

/-- Witness for C5: the linear weight `1000·a` with ten voters and target
2999 yields 2, which satisfies the amended bounds. -/
theorem claim_C5_witness :
    SrcUnsigned.maximum_compact_len linearW 0 ⟨10, 0⟩ 2999 ≤
      (⟨10, 0⟩ : SrcUnsigned.WitnessData).voters ∧
    SrcUnsigned.weight_with linearW ⟨10, 0⟩ 0
      (SrcUnsigned.maximum_compact_len linearW 0 ⟨10, 0⟩ 2999) ≤ 2999 ∧
    (SrcUnsigned.maximum_compact_len linearW 0 ⟨10, 0⟩ 2999 =
       (⟨10, 0⟩ : SrcUnsigned.WitnessData).voters ∨
     2999 ≤ SrcUnsigned.weight_with linearW ⟨10, 0⟩ 0
       (SrcUnsigned.maximum_compact_len linearW 0 ⟨10, 0⟩ 2999 + 1)) :=
  claim_C5_maximum_compact_len_bounds linearW 0 ⟨10, 0⟩ 2999
    (fun a b h => by
      simp only [SrcUnsigned.weight_with, linearW]
      omega)
    (by decide)

end TwoPhaseElection
